import Mathlib

/-!
Verification development for the Byte-Size AI chat console
(React client `src/App.jsx`, Express backend `server/index.js`, SQLite glue `server/db.js`).

The JavaScript sources are shallowly embedded as executable Lean definitions:
machine numbers become `Int`/`Rat`, nullable values become `Option`, fallible
handlers return `Except`, and JS `Date` arithmetic is modelled in proleptic-Gregorian
epoch milliseconds (ECMA-262 MakeDay semantics) with the server clock taken at UTC,
so that local-midnight constructions such as `new Date(y, 11, 25)` coincide with
UTC midnight.
-/

namespace ByteSize

/-! ## JavaScript value helpers -/

/-- Truthiness of a JS string-or-null value: `null`, `undefined` and `""` are falsy. -/
def truthyStr : Option String → Bool
  | none => false
  | some s => !s.data.isEmpty

/-- JS `a || "dflt"` for a string-or-null value, with the source's (non-empty) default. -/
def jsStrDefault (a : Option String) (dflt : String) : String :=
  match a with
  | some s => if s.data.isEmpty then dflt else s
  | none => dflt

/-- JS `String.prototype.trim` (whitespace on the ASCII domain used by the app). -/
def jsTrim (s : String) : String :=
  ⟨((s.data.dropWhile Char.isWhitespace).reverse.dropWhile Char.isWhitespace).reverse⟩

/-- JS `String.prototype.toLowerCase` on the ASCII domain used by the app. -/
def jsToLower (s : String) : String :=
  ⟨s.data.map Char.toLower⟩

/-- Prefix test on character lists. -/
def isPrefixL : List Char → List Char → Bool
  | [], _ => true
  | _ :: _, [] => false
  | a :: as, b :: bs => a == b && isPrefixL as bs

/-- Substring containment on character lists (JS `String.prototype.includes`). -/
def containsSub (needle : List Char) : List Char → Bool
  | [] => needle.isEmpty
  | b :: bs => isPrefixL needle (b :: bs) || containsSub needle bs

/-! ## Calendar model (ECMA-262 `Date` under a UTC clock) -/

def msPerDay : Int := 86400000

/-- Days since the Unix epoch of a proleptic-Gregorian civil date, floor divisions
throughout as in ECMA-262 MakeDay. -/
def daysFromCivil (y m d : Int) : Int :=
  let yAdj : Int := if m ≤ 2 then y - 1 else y
  let era : Int := yAdj.fdiv 400
  let yoe : Int := yAdj - era * 400
  let mp : Int := if m > 2 then m - 3 else m + 9
  let doy : Int := (153 * mp + 2).fdiv 5 + d - 1
  let doe : Int := yoe * 365 + yoe.fdiv 4 - yoe.fdiv 100 + doy
  era * 146097 + doe - 719468

/-- Civil date (year, month, day) of a count of days since the Unix epoch. -/
def civilFromDays (z0 : Int) : Int × Int × Int :=
  let z : Int := z0 + 719468
  let era : Int := z.fdiv 146097
  let doe : Int := z - era * 146097
  let yoe : Int := (doe - doe.fdiv 1460 + doe.fdiv 36524 - doe.fdiv 146096).fdiv 365
  let y : Int := yoe + era * 400
  let doy : Int := doe - (365 * yoe + yoe.fdiv 4 - yoe.fdiv 100)
  let mp : Int := (5 * doy + 2).fdiv 153
  let d : Int := doy - (153 * mp + 2).fdiv 5 + 1
  let m : Int := if mp < 10 then mp + 3 else mp - 9
  (if m ≤ 2 then y + 1 else y, m, d)

/-- Epoch milliseconds of midnight on a civil date: the JS constructor
`new Date(y, mIndex, d)` with the server clock at UTC (month index 11 is December,
passed here as month number 12). -/
def epochMsOfDate (y m d : Int) : Int := daysFromCivil y m d * msPerDay

/-- JS `Date.prototype.getFullYear` under a UTC clock. -/
def getFullYear (ms : Int) : Int := (civilFromDays (ms.fdiv msPerDay)).1

/-- Two-digit zero padding used by ISO date formatting. -/
def pad2 (n : Int) : String := if n < 10 then "0" ++ toString n else toString n

/-- The first ten characters of `Date.prototype.toISOString`, i.e. the yyyy-mm-dd
date portion (the app's domain is four-digit years). -/
def isoDatePortion (ms : Int) : String :=
  let c := civilFromDays (ms.fdiv msPerDay)
  toString c.1 ++ "-" ++ pad2 c.2.1 ++ "-" ++ pad2 c.2.2

/-! ## The `/api/ai` christmas special case (server/index.js lines 312-348) -/

/-- Leftmost match of the regex `20\d{2}` over a character list
(JS `lower.match(/20\d{2}/)`), tried at one position. -/
def year20At : List Char → Option Nat
  | '2' :: '0' :: c :: d :: _ =>
    if c.isDigit && d.isDigit then
      some (2000 + 10 * (c.toNat - 48) + (d.toNat - 48))
    else none
  | _ => none

/-- Leftmost match of the regex `20\d{2}`, scanning every start position left to right. -/
def findYear20 : List Char → Option Nat
  | [] => none
  | a :: rest =>
    match year20At (a :: rest) with
    | some y => some y
    | none => findYear20 rest

/-- Trigger of the date special case: the lower-cased prompt contains both
"how many days" and "christmas". -/
def christmasTriggered (prompt : String) : Bool :=
  let lower := jsToLower prompt
  containsSub "how many days".data lower.data && containsSub "christmas".data lower.data

/-- Target year chosen by the christmas branch: the first `20\d{2}` match in the
lower-cased prompt if present, else the current year, advanced by one when this
year's Dec 25 lies strictly before the effective instant. -/
def christmasTargetYear (prompt : String) (nowMs : Int) : Int :=
  match findYear20 (jsToLower prompt).data with
  | some y => (y : Int)
  | none =>
    let ty := getFullYear nowMs
    if epochMsOfDate ty 12 25 < nowMs then ty + 1 else ty

/-- Ceiling division of integers for a positive divisor. `Math.ceil(diffMs / 86400000)`
computes exactly this: `diffMs` is an integer of magnitude well below 2^53, so the
double quotient's ceiling never disagrees with the exact rational ceiling (a nonzero
remainder is at least 1 ms, far above the rounding error of the quotient). -/
def ceilDiv (a b : Int) : Int := -((-a).fdiv b)

/-- Day count of the christmas branch: `Math.max(0, Math.ceil((target - now) / 86400000))`. -/
def christmasDays (prompt : String) (nowMs : Int) : Int :=
  max 0 (ceilDiv (epochMsOfDate (christmasTargetYear prompt nowMs) 12 25 - nowMs) msPerDay)

/-- The deterministic reply string of the christmas branch. -/
def christmasReply (prompt : String) (nowMs : Int) : String :=
  "There are " ++ toString (christmasDays prompt nowMs) ++ " days until Christmas " ++
    toString (christmasTargetYear prompt nowMs) ++ ". (Based on current date " ++
    isoDatePortion nowMs ++ ")"

/-! ## Model catalog (GET /api/models and GET /api/video-models) -/

/-- Raw pricing record from the upstream list; numeric strings are modelled as
their parsed rational values, absent fields as `none`. -/
structure RawPricing where
  prompt : Option Rat
  completion : Option Rat
deriving DecidableEq

/-- Raw `architecture` object of an upstream model record. -/
structure RawArch where
  output_modalities : Option (List String)
  input_modalities : Option (List String)
deriving DecidableEq

/-- One raw upstream model record, with the two possible modality shapes. -/
structure RawModel where
  id : String
  name : String
  description : String
  pricing : Option RawPricing
  architecture : Option RawArch
  output_modalities : Option (List String)
  input_modalities : Option (List String)
deriving DecidableEq

structure Pricing where
  prompt : Rat
  completion : Rat
deriving DecidableEq

/-- The normalized descriptor built by both model-list handlers. -/
structure ModelDescriptor where
  id : String
  name : String
  description : String
  pricing : Pricing
  isFree : Bool
  outputModalities : List String
  inputModalities : List String
  isImageCapable : Bool
  isVideoCapable : Bool
deriving DecidableEq

def emptyRawPricing : RawPricing := ⟨none, none⟩

def emptyRawArch : RawArch := ⟨none, none⟩

/-- JS `arch.output_modalities || m.output_modalities || []`: the first present
array wins (an empty array is truthy), defaulting to `[]`. -/
def modalityFallback (a b : Option (List String)) : List String :=
  match a with
  | some v => v
  | none =>
    match b with
    | some v => v
    | none => []

/-- The per-record mapping of GET /api/models (server/index.js lines 102-139);
GET /api/video-models repeats the identical mapping text (lines 177-214).
`Number(pricing.prompt || 0)` is the identity on a present parsed value and 0
otherwise (the falsy number 0 also maps to 0), and present modality fields are
arrays in this typed model, so `Array.isArray` always passes. -/
def normalizeModel (m : RawModel) : ModelDescriptor :=
  let pricing := m.pricing.getD emptyRawPricing
  let promptPrice := pricing.prompt.getD 0
  let completionPrice := pricing.completion.getD 0
  let arch := m.architecture.getD emptyRawArch
  let outputModalities := modalityFallback arch.output_modalities m.output_modalities
  let inputModalities := modalityFallback arch.input_modalities m.input_modalities
  let hasImage := outputModalities.contains "image"
  let hasVideo := outputModalities.contains "video" || inputModalities.contains "video"
  { id := m.id
    name := m.name
    description := m.description
    pricing := { prompt := promptPrice, completion := completionPrice }
    isFree := decide (promptPrice = 0) && decide (completionPrice = 0)
    outputModalities := outputModalities
    inputModalities := inputModalities
    isImageCapable := hasImage
    isVideoCapable := hasVideo }

def normalizeAll (l : List RawModel) : List ModelDescriptor :=
  l.map normalizeModel

/-- The sort comparator of both handlers (server/index.js lines 142-146 and 218-222),
read as the boolean relation "comparator result ≤ 0": free models first, then
ascending prompt price. -/
def rankLE (a b : ModelDescriptor) : Bool :=
  if a.isFree && !b.isFree then true
  else if !a.isFree && b.isFree then false
  else decide (a.pricing.prompt ≤ b.pricing.prompt)

/-- JS `Array.prototype.sort` is required stable by ECMAScript 2019; modelled as
stable merge sort by the comparator relation. -/
def rank (l : List ModelDescriptor) : List ModelDescriptor := l.mergeSort rankLE

/-- Capability argument of the spec's `filterByCapability`. -/
inductive Capability
  | any
  | image
  | video
deriving DecidableEq

/-- Capability filtering as performed by the client mode filter (App.jsx lines 176-180)
and the video-models handler (server/index.js line 216). -/
def filterByCapability (l : List ModelDescriptor) : Capability → List ModelDescriptor
  | .any => l
  | .image => l.filter (·.isImageCapable)
  | .video => l.filter (·.isVideoCapable)

/-- Response body of GET /api/models given the raw upstream list. -/
def modelsHandler (raws : List RawModel) : List ModelDescriptor :=
  rank (raws.map normalizeModel)

/-- Response body of GET /api/video-models: normalize, keep video-capable, then sort
(server/index.js lines 216-224). -/
def videoModelsHandler (raws : List RawModel) : List ModelDescriptor :=
  rank ((raws.map normalizeModel).filter (·.isVideoCapable))

/-- One element of the raw `response.data.data` array, which is arbitrary JSON:
a null (or undefined) entry makes every property access in the map callback throw
a TypeError, while any other entry reads as a record whose absent fields are
undefined and is handled by `normalizeModel`. -/
inductive RawEntry
  | nullEntry
  | record (m : RawModel)
deriving DecidableEq

/-- The map callback of GET /api/models applied to one raw entry: `m.pricing` on a
null entry throws a TypeError; every non-null entry is normalized — the callback
has no path that drops a record. -/
def normalizeEntry : RawEntry → Except String ModelDescriptor
  | .nullEntry => .error "TypeError"
  | .record m => .ok (normalizeModel m)

/-- `models.map((m) => ...)` (server/index.js line 102): the callback runs on every
entry in order, and a thrown TypeError aborts the whole map. -/
def mapNormalize : List RawEntry → Except String (List ModelDescriptor)
  | [] => .ok []
  | e :: rest =>
    match normalizeEntry e with
    | .error msg => .error msg
    | .ok d =>
      match mapNormalize rest with
      | .error msg => .error msg
      | .ok ds => .ok (d :: ds)

/-- GET /api/models over a possibly-malformed raw array: any exception inside the
handler lands in the outer catch, which answers with the single aggregate 500 error
(server/index.js lines 149-158); otherwise the normalized list is sorted and
returned. -/
def modelsHandlerE (raws : List RawEntry) : Except String (List ModelDescriptor) :=
  match mapNormalize raws with
  | .error _ => .error "Failed to load models from OpenRouter."
  | .ok mapped => .ok (rank mapped)

/-! ## Client model selection and routing (src/App.jsx) -/

/-- The client mode filter: `filteredModels` (App.jsx lines 176-180) and the `compat`
list of the mode-change effect (lines 185-189) use the same predicate. -/
def compatModels (models : List ModelDescriptor) (mode : String) : List ModelDescriptor :=
  models.filter fun m =>
    if mode == "Image Prompts" then m.isImageCapable
    else if mode == "Video Prompts" then m.isVideoCapable
    else true

/-- The mode-change selection effect (App.jsx lines 182-196): early return when the
model list or the compat list is empty, otherwise keep a still-compatible selection
or fall to the first compatible entry. -/
def updateSelection (models : List ModelDescriptor) (mode : String)
    (selected : Option String) : Option String :=
  if models.isEmpty then selected
  else
    match compatModels models mode with
    | [] => selected
    | c :: cs =>
      if (c :: cs).any (fun m => selected == some m.id) then selected
      else some c.id

/-- Render condition of the "No models available for this mode." notice
(App.jsx lines 1053-1059). -/
def noModelsNoticeShown (isLoadingModels : Bool) (modelError : Option String)
    (filtered : List ModelDescriptor) : Bool :=
  !isLoadingModels && !truthyStr modelError && filtered.isEmpty

/-- The action handleSend takes for a submitted turn. -/
inductive TurnAction
  | rejectEmpty
  | videoCall
  | noModelNotice
  | imageCall
  | aiCall
deriving DecidableEq

/-- Client-side endpoint selection in handleSend (App.jsx lines 517-560), assuming an
authenticated session: empty input is dropped, video mode goes to /api/video before
any model check, a missing selection yields a local notice, and image mode with a
nonempty filtered list goes to /api/image, everything else to /api/ai. -/
def clientRoute (input : String) (mode : String) (models : List ModelDescriptor)
    (selectedModel : Option String) : TurnAction :=
  if (jsTrim input).data.isEmpty then .rejectEmpty
  else if mode == "Video Prompts" then .videoCall
  else if selectedModel.isNone then .noModelNotice
  else if mode == "Image Prompts" && !(compatModels models mode).isEmpty then .imageCall
  else .aiCall

/-! ## POST /api/ai (server/index.js lines 292-413) -/

/-- What the text handler decides before any upstream response exists. -/
inductive AiOutcome
  | inputError (status : Nat) (msg : String)
  | localReply (reply : String)
  | upstreamRequest (model : String) (userPrompt : String)
deriving DecidableEq

/-- JS `modelId || "openai/gpt-4o-mini"`. -/
def resolveModelId (modelId : Option String) : String :=
  jsStrDefault modelId "openai/gpt-4o-mini"

/-- POST /api/ai up to the point of replying locally or issuing the upstream request.
`clientDate` is the parsed epoch-millisecond value of the body's ISO string when
supplied, `wallClockMs` the server clock used otherwise. The trigger reads the
original (untrimmed) prompt, exactly as the source's `lower` does. -/
def aiHandler (prompt : String) (modelId : Option String) (clientDate : Option Int)
    (wallClockMs : Int) : AiOutcome :=
  if (jsTrim prompt).data.isEmpty then .inputError 400 "Missing prompt."
  else
    let nowMs := clientDate.getD wallClockMs
    if christmasTriggered prompt then .localReply (christmasReply prompt nowMs)
    else .upstreamRequest (resolveModelId modelId) prompt

/-- Modelled from the spec: the POST /api/video express handler is absent from src
(only its client caller in App.jsx exists); spec section 4.3 step 7 sends the prompt
plus fixed generation parameters to the selected video backend, one upstream call
per valid turn. -/
def videoHandlerCallsUpstream (prompt : String) : Bool :=
  !(jsTrim prompt).data.isEmpty

/-- Whether the server handler behind each endpoint contacts the upstream model API
for the given request prompt: the text handler short-circuits the christmas case,
the image handler calls upstream for every valid prompt before inspecting anything. -/
def actionCallsUpstream (a : TurnAction) (prompt : String) : Bool :=
  match a with
  | .rejectEmpty => false
  | .noModelNotice => false
  | .videoCall => videoHandlerCallsUpstream prompt
  | .imageCall => !(jsTrim prompt).data.isEmpty
  | .aiCall => !(jsTrim prompt).data.isEmpty && !christmasTriggered prompt

/-- Whether one full submitted turn makes any upstream model call; handleSend sends
the trimmed input as the prompt. -/
def turnCallsUpstream (input mode : String) (models : List ModelDescriptor)
    (sel : Option String) : Bool :=
  actionCallsUpstream (clientRoute input mode models sel) (jsTrim input)

/-- The upstream text completion's message content field. -/
structure AiMessage where
  content : Option String
deriving DecidableEq

structure AiChoice where
  message : Option AiMessage
deriving DecidableEq

/-- A successful upstream chat-completion response body. -/
structure AiResponse where
  choices : Option (List AiChoice)
deriving DecidableEq

structure AiReply where
  reply : String
deriving DecidableEq

/-- The optional chain `response.data.choices?.[0]?.message?.content`. -/
def aiContentOf (resp : AiResponse) : Option String :=
  ((resp.choices.bind List.head?).bind AiChoice.message).bind AiMessage.content

/-- Mapping of a successful upstream response on the text path
(server/index.js lines 390-394): always an HTTP 200 `{ reply }`, falling back to the
fixed sentence when the content chain yields nothing truthy. The error branch of the
handler fires only when the upstream call itself throws, never on a missing field. -/
def aiUpstreamResult (resp : AiResponse) : Except String AiReply :=
  .ok { reply := jsStrDefault (aiContentOf resp) "No response received from OpenRouter." }

/-! ## POST /api/image (server/index.js lines 421-494) -/

structure UrlHolder where
  url : Option String
deriving DecidableEq

/-- One entry of `message.images`, carrying both accepted shapes. -/
structure ImageEntry where
  image_url : Option UrlHolder
  imageUrl : Option UrlHolder
deriving DecidableEq

structure ImageMessage where
  content : Option String
  images : Option (List ImageEntry)
deriving DecidableEq

structure ImageChoice where
  message : Option ImageMessage
deriving DecidableEq

/-- A successful upstream response body on the image path. -/
structure ImageResponse where
  choices : Option (List ImageChoice)
deriving DecidableEq

structure ImageReply where
  reply : String
  imageUrl : String
deriving DecidableEq

def emptyImageMessage : ImageMessage := ⟨none, none⟩

/-- JS `response.data.choices?.[0]?.message || {}`. -/
def imageMessageOf (resp : ImageResponse) : ImageMessage :=
  ((resp.choices.bind List.head?).bind ImageChoice.message).getD emptyImageMessage

/-- The url under the first accepted shape, `images[0].image_url.url`. -/
def imageUrlShapeA (msg : ImageMessage) : Option String :=
  ((msg.images.bind List.head?).bind ImageEntry.image_url).bind UrlHolder.url

/-- The url under the second accepted shape, `images[0].imageUrl.url`. -/
def imageUrlShapeB (msg : ImageMessage) : Option String :=
  ((msg.images.bind List.head?).bind ImageEntry.imageUrl).bind UrlHolder.url

/-- JS `img?.image_url?.url || img?.imageUrl?.url || null`. -/
def extractImageUrl (msg : ImageMessage) : Option String :=
  if truthyStr (imageUrlShapeA msg) then imageUrlShapeA msg
  else if truthyStr (imageUrlShapeB msg) then imageUrlShapeB msg
  else none

/-- Mapping of a successful upstream response on the image path
(server/index.js lines 460-476): a missing url under both shapes is a 500 error,
otherwise a success carrying the url and the content-or-fallback reply. -/
def imageHandlerResult (resp : ImageResponse) : Except String ImageReply :=
  let message := imageMessageOf resp
  match extractImageUrl message with
  | none => .error "OpenRouter returned no image for this prompt."
  | some u => .ok { reply := jsStrDefault message.content "Here is your generated image."
                    imageUrl := u }

/-! ## Conversation store (server/index.js lines 240-284, server/db.js, App.jsx) -/

structure Project where
  id : String
  name : String
  createdAt : Int
deriving DecidableEq

structure MsgMeta where
  brand : String
  mode : String
deriving DecidableEq

structure ChatMessage where
  role : String
  text : String
  meta : Option MsgMeta
  imageUrl : Option String
  type : Option String
  videoUrl : Option String
deriving DecidableEq

structure Chat where
  id : String
  projectId : Option String
  title : String
  messages : List ChatMessage
  createdAt : Int
deriving DecidableEq

/-- The single persisted unit `{projects, chats}`. -/
structure Snapshot where
  projects : List Project
  chats : List Chat
deriving DecidableEq

/-- The `chat_state` table (server/db.js): rows `(id, data)`. The TEXT column holds
`JSON.stringify({projects, chats})`; since `JSON.parse ∘ JSON.stringify` is the
identity on plain JSON data, the stored text is modelled at the value level. -/
abbrev ServerDB := List (String × Snapshot)

/-- SQLite `INSERT ... ON CONFLICT(id) DO UPDATE SET data = excluded.data`. -/
def upsertRow (key : String) (s : Snapshot) : ServerDB → ServerDB
  | [] => [(key, s)]
  | (k, v) :: rest => if k == key then (k, s) :: rest else (k, v) :: upsertRow key s rest

/-- SQLite `SELECT data FROM chat_state WHERE id = ?`. -/
def selectRow (key : String) : ServerDB → Option Snapshot
  | [] => none
  | (k, v) :: rest => if k == key then some v else selectRow key rest

/-- GET /api/chat-state (server/index.js lines 240-256): the stored snapshot for id
"default", or the empty snapshot when no row exists. -/
def chatStateGet (db : ServerDB) : Snapshot :=
  match selectRow "default" db with
  | none => { projects := [], chats := [] }
  | some s => s

/-- POST /api/chat-state (server/index.js lines 259-284). JS arrays are truthy even
when empty, so the `!projects || !chats` guard tests only that both fields are
present in the body. -/
def chatStatePost (projects : Option (List Project)) (chats : Option (List Chat))
    (db : ServerDB) : Except String ServerDB :=
  match projects, chats with
  | some ps, some cs => .ok (upsertRow "default" { projects := ps, chats := cs } db)
  | _, _ => .error "Missing 'projects' or 'chats' in body."

/-- The browser's window.localStorage, restricted to the two keys the save effect
writes. -/
structure BrowserStorage where
  byteSizeProjects : Option (List Project)
  byteSizeChats : Option (List Chat)
deriving DecidableEq

/-- Joint durable state visible to the client: its localStorage and the backend's
chat_state table. -/
structure ClientWorld where
  storage : BrowserStorage
  serverDb : ServerDB
deriving DecidableEq

/-- The save effect (App.jsx lines 284-291): on every change of projects or chats it
stringifies both lists into window.localStorage and performs no network request, so
the server database component is untouched. -/
def saveEffect (projects : List Project) (chats : List Chat) (w : ClientWorld) : ClientWorld :=
  { w with storage := { byteSizeProjects := some projects, byteSizeChats := some chats } }

/-! ## Concrete fixtures used by counterexamples and witnesses -/

/-- A free text-only descriptor, as produced for a record with text-only modalities. -/
def textOnlyModel : ModelDescriptor :=
  { id := "m-text"
    name := "Text Model"
    description := ""
    pricing := { prompt := 0, completion := 0 }
    isFree := true
    outputModalities := ["text"]
    inputModalities := ["text"]
    isImageCapable := false
    isVideoCapable := false }

/-- A free image-capable descriptor. -/
def imageCapableModel : ModelDescriptor :=
  { id := "m-image"
    name := "Image Model"
    description := ""
    pricing := { prompt := 0, completion := 0 }
    isFree := true
    outputModalities := ["text", "image"]
    inputModalities := ["text"]
    isImageCapable := true
    isVideoCapable := false }

/-- A raw record with every optional field absent. -/
def emptyRawModel : RawModel :=
  { id := "raw"
    name := "Raw"
    description := ""
    pricing := none
    architecture := none
    output_modalities := none
    input_modalities := none }

/-! ## Helper lemmas -/

theorem selectRow_upsertRow (key : String) (s : Snapshot) (db : ServerDB) :
    selectRow key (upsertRow key s db) = some s := by
  induction db with
  | nil => simp [upsertRow, selectRow]
  | cons kv rest ih =>
    obtain ⟨k, v⟩ := kv
    by_cases h : k == key
    · simp [upsertRow, selectRow, h]
    · simp only [upsertRow, selectRow, h]
      simpa [h] using ih

theorem mem_dropWhile_of_not {α : Type} {p : α → Bool} {x : α} :
    ∀ {l : List α}, x ∈ l → p x = false → x ∈ l.dropWhile p := by
  intro l
  induction l with
  | nil => intro h _; cases h
  | cons a as ih =>
    intro hmem hpx
    by_cases hpa : p a
    · rw [List.dropWhile_cons_of_pos hpa]
      rcases List.mem_cons.mp hmem with rfl | hmem2
      · rw [hpx] at hpa; cases hpa
      · exact ih hmem2 hpx
    · rw [List.dropWhile_cons_of_neg hpa]
      exact hmem

theorem dropWhile_head_not {α : Type} (p : α → Bool) :
    ∀ (l : List α), l.dropWhile p = [] ∨ ∃ h t, l.dropWhile p = h :: t ∧ p h = false := by
  intro l
  induction l with
  | nil => exact Or.inl rfl
  | cons a as ih =>
    by_cases hpa : p a
    · rw [List.dropWhile_cons_of_pos hpa]; exact ih
    · rw [List.dropWhile_cons_of_neg hpa]
      exact Or.inr ⟨a, as, rfl, Bool.not_eq_true _ ▸ by simpa using hpa⟩

theorem jsTrimL_ne_nil_of_mem {x : Char} {l : List Char}
    (hmem : x ∈ l) (hx : x.isWhitespace = false) :
    (((l.dropWhile Char.isWhitespace).reverse.dropWhile Char.isWhitespace).reverse) ≠ [] := by
  have h1 : x ∈ l.dropWhile Char.isWhitespace := mem_dropWhile_of_not hmem hx
  have h2 : x ∈ (l.dropWhile Char.isWhitespace).reverse := List.mem_reverse.mpr h1
  have h3 : x ∈ (l.dropWhile Char.isWhitespace).reverse.dropWhile Char.isWhitespace :=
    mem_dropWhile_of_not h2 hx
  intro hcontra
  rw [List.reverse_eq_nil_iff] at hcontra
  rw [hcontra] at h3
  cases h3

theorem jsTrim_nonempty_stable (s : String)
    (h : (jsTrim s).data.isEmpty = false) :
    (jsTrim (jsTrim s)).data.isEmpty = false := by
  rcases dropWhile_head_not Char.isWhitespace (s.data.dropWhile Char.isWhitespace).reverse
    with hnil | ⟨c, t, heq, hc⟩
  · exfalso
    have : (jsTrim s).data = [] := by simp [jsTrim, hnil]
    rw [this] at h
    cases h
  · have hmem : c ∈ (jsTrim s).data := by
      show c ∈ ((s.data.dropWhile Char.isWhitespace).reverse.dropWhile Char.isWhitespace).reverse
      rw [heq]
      exact List.mem_reverse.mpr (List.mem_cons_self c t)
    have hne := jsTrimL_ne_nil_of_mem hmem hc
    show (((((jsTrim s).data).dropWhile Char.isWhitespace).reverse.dropWhile
      Char.isWhitespace).reverse).isEmpty = false
    cases hval : (((((jsTrim s).data).dropWhile Char.isWhitespace).reverse.dropWhile
        Char.isWhitespace).reverse) with
    | nil => exact absurd hval hne
    | cons a b => rfl

theorem rankLE_trans (a b c : ModelDescriptor) :
    rankLE a b → rankLE b c → rankLE a c := by
  unfold rankLE
  cases ha : a.isFree <;> cases hb : b.isFree <;> cases hc : c.isFree <;> simp_all
  all_goals exact fun h1 h2 => le_trans h1 h2

theorem rankLE_total (a b : ModelDescriptor) : rankLE a b || rankLE b a := by
  unfold rankLE
  cases ha : a.isFree <;> cases hb : b.isFree <;> simp_all
  all_goals exact le_total _ _

theorem filter_mergeSort_of_ties {α : Type} (le : α → α → Bool) (p : α → Bool)
    (htrans : ∀ (a b c : α), le a b → le b c → le a c)
    (htotal : ∀ (a b : α), le a b || le b a)
    (hties : ∀ a b, p a = true → p b = true → le a b = true)
    (l : List α) :
    (l.mergeSort le).filter p = l.filter p := by
  have hsub : List.Sublist (l.filter p) l := List.filter_sublist l
  have hpair : (l.filter p).Pairwise fun a b => le a b := by
    apply List.pairwise_of_forall_mem_list
    intro a ha b hb
    exact hties a b (List.of_mem_filter ha) (List.of_mem_filter hb)
  have h1 : List.Sublist (l.filter p) (l.mergeSort le) :=
    List.sublist_mergeSort htrans htotal hpair hsub
  have h3 : List.Sublist (l.filter p) ((l.mergeSort le).filter p) := by
    have h2 := h1.filter p
    rwa [List.filter_eq_self.mpr (fun a ha => List.of_mem_filter ha)] at h2
  have hlen : ((l.mergeSort le).filter p).length = (l.filter p).length :=
    ((List.mergeSort_perm l le).filter p).length_eq
  exact (h3.eq_of_length hlen.symm).symm

/-! ## Claim theorems -/

/-- C1: the spec claims every project/chat mutation is pushed through the
Conversation Store's save operation so a subsequent load returns it. The save
effect, however, only writes window.localStorage and never issues the
POST /api/chat-state request, so the server snapshot is unchanged by any client
mutation: a load after mutating still returns the stale stored snapshot. -/
theorem save_effect_never_reaches_store :
    (∀ (ps : List Project) (cs : List Chat) (w : ClientWorld),
      (saveEffect ps cs w).serverDb = w.serverDb)
    ∧ chatStateGet (saveEffect [{ id := "p1", name := "General", createdAt := 0 }] []
        { storage := ⟨none, none⟩, serverDb := [] }).serverDb
        ≠ { projects := [{ id := "p1", name := "General", createdAt := 0 }], chats := [] } :=
  ⟨fun _ _ _ => rfl, by decide⟩

/-- C9: saving a well-formed snapshot (both fields present, possibly empty) and
immediately loading returns a snapshot deep-equal to what was saved, and loading
before anything was persisted returns the empty snapshot. -/
theorem chat_state_round_trip (s : Snapshot) (db : ServerDB) :
    (chatStatePost (some s.projects) (some s.chats) db).map chatStateGet = Except.ok s
    ∧ chatStateGet [] = { projects := [], chats := [] } := by
  constructor
  · simp only [chatStatePost, Except.map, chatStateGet, selectRow_upsertRow]
  · rfl

/-- C10: on the text path, an upstream response with no truthy
choices[0].message.content yields a successful reply whose text is exactly
"No response received from OpenRouter.", never an error. -/
theorem ai_missing_content_is_success (resp : AiResponse)
    (h : truthyStr (aiContentOf resp) = false) :
    aiUpstreamResult resp = Except.ok { reply := "No response received from OpenRouter." }
    ∧ ∀ e : String, aiUpstreamResult resp ≠ Except.error e := by
  have hr : jsStrDefault (aiContentOf resp) "No response received from OpenRouter."
      = "No response received from OpenRouter." := by
    cases hc : aiContentOf resp with
    | none => rfl
    | some str =>
      rw [hc] at h
      have hempty : str.data.isEmpty = true := by
        cases hd : str.data.isEmpty
        · rw [truthyStr, hd] at h
          exact absurd h (by decide)
        · rfl
      simp [jsStrDefault, hempty]
  refine ⟨by simp [aiUpstreamResult, hr], ?_⟩
  intro e hcontra
  simp [aiUpstreamResult] at hcontra

theorem ai_missing_content_is_success_witness :
    aiUpstreamResult { choices := none }
      = Except.ok { reply := "No response received from OpenRouter." } :=
  (ai_missing_content_is_success { choices := none } rfl).1

/-- C5: an image-path upstream response in which neither accepted shape
(images[0].image_url.url, images[0].imageUrl.url) yields a truthy url fails with
the hard error, never a success with a null imageUrl. -/
theorem image_no_url_is_error (resp : ImageResponse)
    (ha : truthyStr (imageUrlShapeA (imageMessageOf resp)) = false)
    (hb : truthyStr (imageUrlShapeB (imageMessageOf resp)) = false) :
    imageHandlerResult resp = Except.error "OpenRouter returned no image for this prompt."
    ∧ ∀ r : ImageReply, imageHandlerResult resp ≠ Except.ok r := by
  have hx : extractImageUrl (imageMessageOf resp) = none := by
    simp [extractImageUrl, ha, hb]
  refine ⟨by simp [imageHandlerResult, hx], ?_⟩
  intro r hcontra
  simp [imageHandlerResult, hx] at hcontra

theorem image_no_url_is_error_witness :
    imageHandlerResult { choices := some [] }
      = Except.error "OpenRouter returned no image for this prompt." :=
  (image_no_url_is_error { choices := some [] } rfl rfl).1

theorem mapNormalize_records (ms : List RawModel) :
    mapNormalize (ms.map RawEntry.record) = Except.ok (ms.map normalizeModel) := by
  induction ms with
  | nil => rfl
  | cons m rest ih => simp [mapNormalize, normalizeEntry, ih]

theorem mapNormalize_error_of_mem {es : List RawEntry}
    (h : RawEntry.nullEntry ∈ es) : mapNormalize es = Except.error "TypeError" := by
  induction es with
  | nil => cases h
  | cons e rest ih =>
    cases e with
    | nullEntry => rfl
    | record m =>
      have hrest : RawEntry.nullEntry ∈ rest := by
        rcases List.mem_cons.mp h with h1 | h2
        · exact absurd h1 (by simp)
        · exact h2
      simp [mapNormalize, normalizeEntry, ih hrest]

/-- C8 counterexample: a models array holding a well-formed record followed by a
null entry is not handled by dropping the unparseable entry — the TypeError thrown
by the map callback aborts the whole fetch with the aggregate 500 error, and in
particular the result is not the ranked listing of the surviving record. -/
theorem null_record_aborts_fetch :
    modelsHandlerE [RawEntry.record emptyRawModel, RawEntry.nullEntry]
      = Except.error "Failed to load models from OpenRouter."
    ∧ modelsHandlerE [RawEntry.record emptyRawModel, RawEntry.nullEntry]
        ≠ Except.ok (rank [normalizeModel emptyRawModel]) := by
  have h1 : modelsHandlerE [RawEntry.record emptyRawModel, RawEntry.nullEntry]
      = Except.error "Failed to load models from OpenRouter." := rfl
  refine ⟨h1, ?_⟩
  rw [h1]
  intro h
  cases h

/-- C8 (amended): for every non-null raw record the normalizer is total with the
claimed defaults — missing pricing fields default to 0 (the record reads as free),
modalities are read architecture-first then top-level and default to the empty set
when absent in both — and no record is ever dropped: every record of a well-formed
array yields exactly one descriptor. A malformed entry on which property access
throws (a null in the models array) is not dropped either: it aborts the whole
fetch with the single aggregate error. -/
theorem normalizer_defaults_and_abort (m : RawModel)
    (hp : (m.pricing.getD emptyRawPricing).prompt = none)
    (hc : (m.pricing.getD emptyRawPricing).completion = none)
    (hao : (m.architecture.getD emptyRawArch).output_modalities = none)
    (hto : m.output_modalities = none)
    (hai : (m.architecture.getD emptyRawArch).input_modalities = none)
    (hti : m.input_modalities = none) :
    (normalizeModel m).pricing.prompt = 0
    ∧ (normalizeModel m).pricing.completion = 0
    ∧ (normalizeModel m).isFree = true
    ∧ (normalizeModel m).outputModalities = []
    ∧ (normalizeModel m).inputModalities = []
    ∧ (∀ m2 : RawModel, (normalizeModel m2).outputModalities
        = ((m2.architecture.getD emptyRawArch).output_modalities).getD
            (m2.output_modalities.getD []))
    ∧ (∀ m2 : RawModel, (normalizeModel m2).inputModalities
        = ((m2.architecture.getD emptyRawArch).input_modalities).getD
            (m2.input_modalities.getD []))
    ∧ (∀ ms : List RawModel,
        mapNormalize (ms.map RawEntry.record) = Except.ok (ms.map normalizeModel)
        ∧ modelsHandlerE (ms.map RawEntry.record) = Except.ok (modelsHandler ms))
    ∧ (∀ es : List RawEntry, RawEntry.nullEntry ∈ es →
        modelsHandlerE es = Except.error "Failed to load models from OpenRouter.") := by
  refine ⟨?_, ?_, ?_, ?_, ?_, ?_, ?_, ?_, ?_⟩
  · simp [normalizeModel, hp]
  · simp [normalizeModel, hc]
  · simp [normalizeModel, hp, hc]
  · simp [normalizeModel, modalityFallback, hao, hto]
  · simp [normalizeModel, modalityFallback, hai, hti]
  · intro m2
    cases h1 : (m2.architecture.getD emptyRawArch).output_modalities <;>
      cases h2 : m2.output_modalities <;>
        simp [normalizeModel, modalityFallback, h1, h2]
  · intro m2
    cases h1 : (m2.architecture.getD emptyRawArch).input_modalities <;>
      cases h2 : m2.input_modalities <;>
        simp [normalizeModel, modalityFallback, h1, h2]
  · intro ms
    refine ⟨mapNormalize_records ms, ?_⟩
    simp [modelsHandlerE, mapNormalize_records ms, modelsHandler]
  · intro es hmem
    simp [modelsHandlerE, mapNormalize_error_of_mem hmem]

theorem normalizer_defaults_and_abort_witness :
    (normalizeModel emptyRawModel).pricing.prompt = 0
    ∧ (normalizeModel emptyRawModel).outputModalities = [] := by
  have h := normalizer_defaults_and_abort emptyRawModel rfl rfl rfl rfl rfl rfl
  exact ⟨h.1, h.2.2.2.1⟩

/-- C4 counterexample: with a single non-image-capable model selected and the mode
switched to "Image Prompts", the newly filtered list is empty, yet the effect keeps
the previous (now invalid) selection instead of clearing it. -/
theorem empty_mode_list_keeps_selection :
    compatModels [textOnlyModel] "Image Prompts" = []
    ∧ updateSelection [textOnlyModel] "Image Prompts" (some "m-text") = some "m-text"
    ∧ ¬ updateSelection [textOnlyModel] "Image Prompts" (some "m-text") = none := by
  refine ⟨by decide, by decide, by decide⟩

/-- C4 (amended): when the mode's filtered list is nonempty and the current
selection is not in it, the first entry becomes the selection; when the filtered
list is empty the effect returns early and the previous selection is kept in state
(not cleared), while the UI surfaces "No models available for this mode." whenever
the filtered list is empty, loading is finished, and there is no load error. -/
theorem mode_change_selection_behavior
    (models : List ModelDescriptor) (mode : String) (sel : Option String)
    (models2 : List ModelDescriptor) (mode2 : String) (sel2 : Option String)
    (c : ModelDescriptor) (cs : List ModelDescriptor)
    (isLoading : Bool) (err : Option String)
    (hempty : compatModels models mode = [])
    (hcompat : compatModels models2 mode2 = c :: cs)
    (hnotin : (c :: cs).any (fun m => sel2 == some m.id) = false)
    (hload : isLoading = false) (herr : err = none) :
    updateSelection models mode sel = sel
    ∧ noModelsNoticeShown isLoading err (compatModels models mode) = true
    ∧ updateSelection models2 mode2 sel2 = some c.id := by
  have h2ne : models2.isEmpty = false := by
    cases models2 with
    | nil => simp [compatModels] at hcompat
    | cons a as => rfl
  refine ⟨?_, ?_, ?_⟩
  · unfold updateSelection
    by_cases hm : models.isEmpty
    · simp [hm]
    · simp [hm, hempty]
  · simp [noModelsNoticeShown, hload, herr, hempty, truthyStr]
  · unfold updateSelection
    simp [h2ne, hcompat, hnotin]

theorem mode_change_selection_behavior_witness :
    updateSelection [textOnlyModel] "Image Prompts" (some "m-text") = some "m-text"
    ∧ noModelsNoticeShown false none (compatModels [textOnlyModel] "Image Prompts") = true
    ∧ updateSelection [textOnlyModel] "Chat / Brain" none = some "m-text" := by
  have h := mode_change_selection_behavior
    [textOnlyModel] "Image Prompts" (some "m-text")
    [textOnlyModel] "Chat / Brain" none
    textOnlyModel [] false none
    (by decide) (by decide) (by decide) rfl rfl
  exact h

/-- C3 counterexample: a turn whose lower-cased prompt contains both trigger
fragments, submitted in "Image Prompts" mode with an image-capable model available,
is routed to the image endpoint by the client before any date check is reached, and
the image handler contacts the upstream API for it. -/
theorem image_mode_christmas_counterexample :
    christmasTriggered "how many days until christmas?" = true
    ∧ clientRoute "how many days until christmas?" "Image Prompts"
        [imageCapableModel] (some "m-image") = TurnAction.imageCall
    ∧ turnCallsUpstream "how many days until christmas?" "Image Prompts"
        [imageCapableModel] (some "m-image") = true := by
  refine ⟨by decide, by decide, by decide⟩

/-- C3 (amended): mode-based endpoint selection happens on the client before the
server's date check, so only turns that route to the text endpoint get the special
case; for every such turn with a triggered prompt the reply is the locally computed
date reply and no upstream model call is made. -/
theorem ai_path_christmas_no_upstream
    (input mode : String) (models : List ModelDescriptor) (sel : Option String)
    (clientDate : Option Int) (wallClockMs : Int)
    (hroute : clientRoute input mode models sel = TurnAction.aiCall)
    (htrig : christmasTriggered (jsTrim input) = true) :
    aiHandler (jsTrim input) sel clientDate wallClockMs
      = AiOutcome.localReply (christmasReply (jsTrim input) (clientDate.getD wallClockMs))
    ∧ turnCallsUpstream input mode models sel = false := by
  have h0 : (jsTrim input).data.isEmpty = false := by
    by_cases h : (jsTrim input).data.isEmpty
    · simp [clientRoute, h] at hroute
    · simpa using h
  have hne := jsTrim_nonempty_stable input h0
  constructor
  · simp [aiHandler, hne, htrig]
  · unfold turnCallsUpstream
    rw [hroute]
    simp [actionCallsUpstream, htrig]

theorem ai_path_christmas_no_upstream_witness :
    aiHandler (jsTrim "how many days until christmas") (some "m-text") none 1735689600000
      = AiOutcome.localReply
          (christmasReply (jsTrim "how many days until christmas")
            ((none : Option Int).getD 1735689600000))
    ∧ turnCallsUpstream "how many days until christmas" "Chat / Brain" [] (some "m-text")
        = false :=
  ai_path_christmas_no_upstream "how many days until christmas" "Chat / Brain" []
    (some "m-text") none 1735689600000 (by decide) (by decide)

/-- C2: for every turn whose prompt triggers the date special case, the handler
replies locally with the deterministic string embedding the day count
max(0, ceil((Dec 25 of the target year - now) / 86400000)), the target year, and the
ISO date portion of the effective timestamp; the target year is the first 20xx match
in the lower-cased prompt when present and otherwise the current year, advanced by
one when this year's Dec 25 already lies strictly in the past. -/
theorem christmas_turn_reply (prompt : String) (modelId : Option String)
    (clientDate : Option Int) (wallClockMs : Int)
    (hne : (jsTrim prompt).data.isEmpty = false)
    (htrig : christmasTriggered prompt = true) :
    aiHandler prompt modelId clientDate wallClockMs
      = AiOutcome.localReply
          ("There are "
            ++ toString (max 0 (ceilDiv
                (epochMsOfDate (christmasTargetYear prompt (clientDate.getD wallClockMs)) 12 25
                  - clientDate.getD wallClockMs) msPerDay))
            ++ " days until Christmas "
            ++ toString (christmasTargetYear prompt (clientDate.getD wallClockMs))
            ++ ". (Based on current date "
            ++ isoDatePortion (clientDate.getD wallClockMs) ++ ")")
    ∧ christmasTargetYear prompt (clientDate.getD wallClockMs)
        = (match findYear20 (jsToLower prompt).data with
           | some y => (y : Int)
           | none =>
             if epochMsOfDate (getFullYear (clientDate.getD wallClockMs)) 12 25
                 < clientDate.getD wallClockMs
             then getFullYear (clientDate.getD wallClockMs) + 1
             else getFullYear (clientDate.getD wallClockMs)) := by
  constructor
  · simp [aiHandler, hne, htrig, christmasReply, christmasDays]
  · cases hy : findYear20 (jsToLower prompt).data <;>
      simp [christmasTargetYear, hy]

theorem christmas_turn_reply_witness :
    aiHandler "How many days until christmas 2026?" none (some 1735689600000) 0
      = AiOutcome.localReply
          "There are 723 days until Christmas 2026. (Based on current date 2025-01-01)" := by
  have h := christmas_turn_reply "How many days until christmas 2026?" none
    (some 1735689600000) 0 (by decide) (by decide)
  rw [h.1]
  decide

/-- C6: rank orders every free descriptor before every paid one and descriptors of
equal freeness by ascending prompt price, is a permutation of its input, keeps tied
descriptors (same freeness and prompt price) in their upstream relative order, and
is deterministic across repeated calls on the same input. -/
theorem rank_properties (l : List ModelDescriptor) :
    ((rank l).Pairwise fun a b =>
      (b.isFree = true → a.isFree = true)
      ∧ (a.isFree = b.isFree → a.pricing.prompt ≤ b.pricing.prompt))
    ∧ (rank l).Perm l
    ∧ (∀ (f : Bool) (q : Rat),
        (rank l).filter (fun d => d.isFree == f && d.pricing.prompt == q)
          = l.filter (fun d => d.isFree == f && d.pricing.prompt == q))
    ∧ (∀ l2 : List ModelDescriptor, l2 = l → rank l2 = rank l) := by
  refine ⟨?_, List.mergeSort_perm l rankLE, ?_, ?_⟩
  · have hs := List.sorted_mergeSort rankLE_trans rankLE_total l
    apply hs.imp
    intro a b hab
    unfold rankLE at hab
    cases ha : a.isFree <;> cases hb : b.isFree <;> simp_all
  · intro f q
    apply filter_mergeSort_of_ties rankLE _ rankLE_trans rankLE_total
    intro a b hpa hpb
    simp only [Bool.and_eq_true, beq_iff_eq] at hpa hpb
    obtain ⟨haf, haq⟩ := hpa
    obtain ⟨hbf, hbq⟩ := hpb
    unfold rankLE
    rw [haf, hbf, haq, hbq]
    cases f <;> simp
  · intro l2 h
    rw [h]

/-- C7: filtering by the image capability keeps exactly the normalized descriptors
with "image" among output modalities, filtering by video keeps exactly those with
"video" in either modality set, filtering returns a sublist (it mutates no
descriptor), and the video-models listing is exactly rank of the video filter. -/
theorem capability_filters (raws : List RawModel) :
    filterByCapability (normalizeAll raws) Capability.image
      = (normalizeAll raws).filter (fun d => d.outputModalities.contains "image")
    ∧ filterByCapability (normalizeAll raws) Capability.video
      = (normalizeAll raws).filter
          (fun d => d.outputModalities.contains "video" || d.inputModalities.contains "video")
    ∧ (∀ (l : List ModelDescriptor) (cap : Capability),
        List.Sublist (filterByCapability l cap) l)
    ∧ videoModelsHandler raws = rank (filterByCapability (normalizeAll raws) Capability.video) := by
  refine ⟨?_, ?_, ?_, rfl⟩
  · apply List.filter_congr
    intro d hd
    simp only [normalizeAll, List.mem_map] at hd
    obtain ⟨m, _, rfl⟩ := hd
    rfl
  · apply List.filter_congr
    intro d hd
    simp only [normalizeAll, List.mem_map] at hd
    obtain ⟨m, _, rfl⟩ := hd
    rfl
  · intro l cap
    cases cap with
    | any => exact List.Sublist.refl l
    | image => exact List.filter_sublist l
    | video => exact List.filter_sublist l

end ByteSize
